import Mathlib

/-!
Verification of the ckanext-nextgeossharvest shared harvesting engine.

The definitions below are a shallow embedding of the Python sources:
  * ckanext/nextgeossharvest/lib/plan4all_base.py   (OLUHarvester)
  * ckanext/nextgeossharvest/harvesters/esa.py      (ESAHarvester.gather_stage)
  * ckanext/nextgeossharvest/harvesters/cmems.py    (CMEMSHarvester.gather_stage)
  * ckanext/nextgeossharvest/harvesters/probav.py   (PROBAVHarvester._parse_content)

Python dictionaries whose keys are fixed are modelled as structures with
Option-valued fields (a missing key is none); exceptions (KeyError,
ValueError, AttributeError, TypeError) are modelled with Except; Python 2
lowercase is modelled on ASCII letters (the only case the sources exercise).
-/

deriving instance DecidableEq for Except

namespace NextGeoss

/-- ASCII lowering of one character, as Python unicode.lower acts on the
ASCII range (all characters the harvester handles are ASCII). -/
def pyLowerChar (c : Char) : Char :=
  match c with
  | 'A' => 'a' | 'B' => 'b' | 'C' => 'c' | 'D' => 'd' | 'E' => 'e'
  | 'F' => 'f' | 'G' => 'g' | 'H' => 'h' | 'I' => 'i' | 'J' => 'j'
  | 'K' => 'k' | 'L' => 'l' | 'M' => 'm' | 'N' => 'n' | 'O' => 'o'
  | 'P' => 'p' | 'Q' => 'q' | 'R' => 'r' | 'S' => 's' | 'T' => 't'
  | 'U' => 'u' | 'V' => 'v' | 'W' => 'w' | 'X' => 'x' | 'Y' => 'y'
  | 'Z' => 'z'
  | c => c

/-- Python `s.lower()`. -/
def pyLower (s : String) : String :=
  ⟨s.data.map pyLowerChar⟩

/-- Python `s.endswith(c)` for a one-character suffix. -/
def pyEndsWith (s : String) (c : Char) : Bool :=
  match s.data.getLast? with
  | some d => d == c
  | none => false

/-- Python `s.replace(a, b)` for one-character patterns. -/
def pyReplaceChar (s : String) (a b : Char) : String :=
  ⟨s.data.map (fun c => if c == a then b else c)⟩

/-- Is the first list a prefix of the second (executable)? -/
def listLeads : List Char → List Char → Bool
  | [], _ => true
  | _ :: _, [] => false
  | a :: as, b :: bs => a == b && listLeads as bs

/-- Python `s.startswith(p)`. -/
def pyStartsWith (s p : String) : Bool :=
  listLeads p.data s.data

/-- Does `needle` occur as a contiguous substring of the character list? -/
def listHasSub (needle : List Char) : List Char → Bool
  | [] => listLeads needle []
  | b :: bs => listLeads needle (b :: bs) || listHasSub needle bs

/-- Python `needle in hay` on strings. -/
def pyIn (needle hay : String) : Bool :=
  listHasSub needle.data hay.data

/-- Numeric value of a digit list read left to right. -/
def digitsValue (l : List Char) : Nat :=
  l.foldl (fun a c => a * 10 + (c.toNat - 48)) 0

/-- Split a character list at the first dot, if any. -/
def splitDot : List Char → List Char × Option (List Char)
  | [] => ([], none)
  | '.' :: r => ([], some r)
  | c :: r =>
    let p := splitDot r
    (c :: p.1, p.2)

/-- Python `float(s)` restricted to finite decimal literals
(optional sign, digits, optional dot and digits); anything else raises
ValueError.  Exponents, infinities and whitespace padding are not used by
the sources or the spec examples.  The value is kept exact as a rational. -/
def pyFloat (s : String) : Except String ℚ :=
  let cs := s.data
  let sb : ℤ × List Char :=
    match cs with
    | '-' :: r => (-1, r)
    | '+' :: r => (1, r)
    | _ => (1, cs)
  let p := splitDot sb.2
  let ip := p.1
  let ok : Bool :=
    ip.all Char.isDigit &&
      (match p.2 with
       | none => !ip.isEmpty
       | some f => f.all Char.isDigit && (!ip.isEmpty || !f.isEmpty))
  if ok then
    match p.2 with
    | none => .ok (mkRat (sb.1 * (digitsValue ip : ℤ)) 1)
    | some f =>
      .ok
        (mkRat
          (sb.1 *
            ((digitsValue ip : ℤ) * (10 : ℤ) ^ f.length + (digitsValue f : ℤ)))
          ((10 : ℕ) ^ f.length))
  else
    .error "ValueError"

/-- A parsed XML/HTML node as BeautifulSoup presents it: element nodes with a
(lower-cased) tag name and children, and bare text nodes.  The sources parse
entry content with BeautifulSoup before inspecting it, so the embedding takes
the parsed tree as input. -/
inductive XNode where
  | elem (name : String) (children : List XNode) : XNode
  | txt (s : String) : XNode

/-- Tag name of a node (text nodes have no tag). -/
def XNode.nameOf : XNode → String
  | .elem n _ => n
  | .txt _ => ""

mutual

/-- BeautifulSoup `.text`: concatenation of all descendant strings. -/
def XNode.innerText : XNode → String
  | .txt s => s
  | .elem _ cs => innerTextList cs

/-- `.text` over a list of children, in order. -/
def innerTextList : List XNode → String
  | [] => ""
  | n :: ns => n.innerText ++ innerTextList ns

end

mutual

/-- All descendant element nodes of a node, in document (pre-)order; this is
what `findChildren()` / `find_all` / `find` iterate over. -/
def XNode.descendants : XNode → List XNode
  | .txt _ => []
  | .elem _ cs => descendantsList cs

/-- Descendant elements of a list of children, in order, each child element
followed by its own descendants. -/
def descendantsList : List XNode → List XNode
  | [] => []
  | c :: cs =>
    (match c with
     | .elem _ _ => [c]
     | .txt _ => []) ++ c.descendants ++ descendantsList cs

end

/-- BeautifulSoup `node.find(name)`: first descendant element with the tag. -/
def XNode.findDesc (n : XNode) (name : String) : Option XNode :=
  n.descendants.find? (fun d => d.nameOf == name)

/-- BeautifulSoup `node.find_all(name)`: all descendant elements with the tag. -/
def XNode.findAllDesc (n : XNode) (name : String) : List XNode :=
  n.descendants.filter (fun d => d.nameOf == name)

/-- The inner `spatial` dictionary built by `OLUHarvester._normalize_names`,
keyed gmd:westboundlongitude / east / south / north; values are the raw
element texts. -/
structure SpatialDict where
  west : Option String
  east : Option String
  south : Option String
  north : Option String
deriving DecidableEq

/-- The metadata dictionary threaded through `_normalize_names` and
`_parse_content`.  Option-valued fields model dict keys that may be absent;
`spatialDict` is the intermediate 4-value dictionary (popped by
`_parse_content`), `spatial` the coordinate ring of the GeoJSON polygon the
code serialises. -/
structure Item where
  spatialDict : Option SpatialDict := none
  spatial : Option (List (ℚ × ℚ)) := none
  StartTime : Option String := none
  StopTime : Option String := none
  identifier : Option String := none
  Filename : Option String := none
  parent_identifier : Option String := none
  name : Option String := none
  title : Option String := none
  notes : Option String := none
  thumbnail : Option String := none
  geojsonLink : Option String := none
  shapefileLink : Option String := none
  collection_name : Option String := none
  collection_description : Option String := none
  collection_id : Option String := none
  tags : List String := []
deriving DecidableEq

/-- The dictionary `_normalize_names` starts from: an empty item whose
`spatial` key maps to the 4-entry dictionary of None values. -/
def initItem : Item :=
  { spatialDict := some ⟨none, none, none, none⟩ }

/-- One iteration of the `_normalize_names` loop over `findChildren()`:
record the element text under the normalized key.  The two date-like targets
are lower-cased, identifier/notes/title are stored raw, and the four spatial
bounds go into the inner spatial dictionary (raw). -/
def collectStep (it : Item) (nd : XNode) : Item :=
  let nm := nd.nameOf
  let t := nd.innerText
  if nm = "gmd:datestamp" then { it with StartTime := some (pyLower t) }
  else if nm = "gmd:westboundlongitude" then
    { it with spatialDict := it.spatialDict.map (fun d => { d with west := some t }) }
  else if nm = "gmd:eastboundlongitude" then
    { it with spatialDict := it.spatialDict.map (fun d => { d with east := some t }) }
  else if nm = "gmd:southboundlatitude" then
    { it with spatialDict := it.spatialDict.map (fun d => { d with south := some t }) }
  else if nm = "gmd:northboundlatitude" then
    { it with spatialDict := it.spatialDict.map (fun d => { d with north := some t }) }
  else if nm = "gmd:fileidentifier" then { it with identifier := some t }
  else if nm = "gmd:title" then { it with title := some t }
  else if nm = "gmd:abstract" then { it with notes := some t }
  else if nm = "gmd:parentidentifier" then
    { it with parent_identifier := some (pyLower t) }
  else it

/-- The field-collection loop of `_normalize_names` (plan4all_base.py
lines 49-58). -/
def collectFields (root : XNode) : Item :=
  root.descendants.foldl collectStep initItem

/-- Lines 62-65: if any of the four spatial values is still None, the whole
spatial dictionary is deleted. -/
def dropIncompleteSpatial (it : Item) : Item :=
  match it.spatialDict with
  | some d =>
    if d.west.isNone || d.east.isNone || d.south.isNone || d.north.isNone then
      { it with spatialDict := none }
    else it
  | none => it

/-- Lines 67-73: if there is a StartTime but no StopTime, StopTime is copied
from StartTime and, when StartTime does not end in Z, both are widened to the
whole day. -/
def synthTimes (it : Item) : Item :=
  match it.StartTime, it.StopTime with
  | some s, none =>
    if pyEndsWith s 'Z' then { it with StopTime := some s }
    else
      { it with
        StartTime := some (s ++ "T00:00:00.000Z"),
        StopTime := some (s ++ "T23:59:59.999Z") }
  | _, _ => it

/-- `OLUHarvester._normalize_names`. -/
def normalizeNames (root : XNode) : Item :=
  synthTimes (dropIncompleteSpatial (collectFields root))

/-- Lines 114-121 of plan4all_base.py: convert the four spatial strings to
floats and build the closed coordinate ring NW, NE, SE, SW, NW of the GeoJSON
polygon.  A missing value makes `float(None)` raise TypeError; a non-numeric
value makes `float(...)` raise ValueError. -/
def parseSpatial (d : SpatialDict) : Except String (List (ℚ × ℚ)) :=
  match d.west, d.east, d.south, d.north with
  | some ws, some es, some ss, some ns =>
    match pyFloat ws, pyFloat es, pyFloat ss, pyFloat ns with
    | .ok w, .ok e, .ok s, .ok n =>
      .ok [(w, n), (e, n), (e, s), (w, s), (w, n)]
    | _, _, _, _ => .error "ValueError"
  | _, _, _, _ => .error "TypeError"

/-- Lines 110-122: pop the spatial dictionary and, when it is present,
convert it to the polygon ring (errors propagate). -/
def applySpatial (it : Item) : Except String Item :=
  let popped : Item := { it with spatialDict := none }
  match it.spatialDict with
  | none => .ok popped
  | some d =>
    match parseSpatial d with
    | .ok ring => .ok { popped with spatial := some ring }
    | .error e => .error e

/-- Lines 124-126: replace dots in the identifier and derive Filename. -/
def applyIdent (it : Item) : Item :=
  match it.identifier with
  | some i =>
    let i2 := pyReplaceChar i '.' '_'
    { it with identifier := some i2, Filename := some (pyLower i2) }
  | none => it

/-- Lines 128-129: replace dots in the parent identifier. -/
def applyParent (it : Item) : Item :=
  match it.parent_identifier with
  | some p => { it with parent_identifier := some (pyReplaceChar p '.' '_') }
  | none => it

/-- Line 131: `item['name'] = item['identifier'].lower()` — raises KeyError
when no identifier was extracted. -/
def applyName (it : Item) : Except String Item :=
  match it.identifier with
  | some i => .ok { it with name := some (pyLower i) }
  | none => .error "KeyError: identifier"

/-- Lines 134-137: thumbnail from gmd:md_browsegraphic / gmd:filename;
`.text` on a failed inner find raises AttributeError. -/
def applyThumb (root : XNode) (it : Item) : Except String Item :=
  match root.findDesc "gmd:md_browsegraphic" with
  | none => .ok it
  | some g =>
    match g.findDesc "gmd:filename" with
    | some f => .ok { it with thumbnail := some f.innerText }
    | none => .error "AttributeError"

/-- One iteration of the gmd:online loop (lines 140-149): classify the
resource by its gmd:name text and record the gmd:linkage URL. -/
def onlineStep (it : Item) (res : XNode) : Except String Item :=
  match res.findDesc "gmd:name" with
  | none => .error "AttributeError"
  | some nmNode =>
    let nm := pyReplaceChar nmNode.innerText ' ' '_'
    if pyIn "GeoJSON" nm then
      match res.findDesc "gmd:linkage" with
      | some l => .ok { it with geojsonLink := some l.innerText }
      | none => .error "AttributeError"
    else if pyIn "SHP" nm then
      match res.findDesc "gmd:linkage" with
      | some l => .ok { it with shapefileLink := some l.innerText }
      | none => .error "AttributeError"
    else .ok it

/-- The gmd:online loop over `find_all` results, in document order. -/
def onlinesFold (it : Item) : List XNode → Except String Item
  | [] => .ok it
  | r :: rs =>
    match onlineStep it r with
    | .ok it2 => onlinesFold it2 rs
    | .error e => .error e

/-- The fixed collection description text of `_add_collection`. -/
def oluCollectionDescription : String :=
  "The main idea is to put Open Land Use dataset and also its metadata (from micka.lesprojekt.cz) in RDF format into Virtuoso and explore SPARQL queries that would combine data with metadata. For instance: Show me the datasets (municipalities) where more than 50% of the area is covered by residential areas and data were collected not later than 5 years ago? This query combines some metadata (such as year of data collection and municipality which data covers) with data itself  (object features with residential land use). For automatization of such queries it is necessary to have both data and metadata available for querying and interconnected. In ideal case the output will be endpoint where it will be possible to query both OLU data and metadata, some model queries and possibly some visualization of query results."

/-- `OLUHarvester._add_collection` (lines 76-84): fixed collection metadata
is attached only when the lower-cased identifier starts with olu; reading a
missing identifier raises KeyError. -/
def addCollection (it : Item) : Except String Item :=
  match it.identifier with
  | none => .error "KeyError: identifier"
  | some id0 =>
    if pyStartsWith (pyLower id0) "olu" then
      .ok { it with
        collection_name := some "Open Land Use Map",
        collection_description := some oluCollectionDescription,
        collection_id := some "OPEN_LAND_USE_MAP" }
    else .ok it

/-- `OLUHarvester._get_tags_for_dataset` (lines 86-98); tag dictionaries are
modelled by their name strings. -/
def getTagsForDataset (it : Item) : Except String (List String) :=
  match it.identifier with
  | none => .error "KeyError: identifier"
  | some id0 =>
    if pyStartsWith (pyLower id0) "olu" then
      .ok ["OLU", "open land use", "LULC", "land use", "land cover", "agriculture"]
    else .ok []

/-- Lines 154-158: unconditional title/notes overrides from the collection
metadata (KeyError when `_add_collection` added nothing), then tags. -/
def applyTitleNotesTags (it : Item) : Except String Item :=
  match it.collection_name with
  | none => .error "KeyError: collection_name"
  | some cn =>
    let it2 : Item := { it with title := some cn }
    match it2.collection_description with
    | none => .error "KeyError: collection_description"
    | some cd =>
      let it3 : Item := { it2 with notes := some cd }
      match getTagsForDataset it3 with
      | .ok ts => .ok { it3 with tags := ts }
      | .error e => .error e

/-- `OLUHarvester._parse_content` (lines 100-160), with the failure points in
the order the Python executes them. -/
def parseContent (root : XNode) : Except String Item :=
  let it0 := normalizeNames root
  match applySpatial it0 with
  | .error e => .error e
  | .ok it1 =>
    let it2 := applyParent (applyIdent it1)
    match applyName it2 with
    | .error e => .error e
    | .ok it3 =>
      match applyThumb root it3 with
      | .error e => .error e
      | .ok it4 =>
        match onlinesFold it4 (root.findAllDesc "gmd:online") with
        | .error e => .error e
        | .ok it5 =>
          match addCollection it5 with
          | .error e => .error e
          | .ok it6 => applyTitleNotesTags it6

/-- A CKAN resource dictionary as `_get_resources` handles it.  `order` is
Option-valued: `none` models a null/absent order (Python None). -/
structure Resource where
  name : String := ""
  description : String := ""
  url : String := ""
  format : String := ""
  mimetype : String := ""
  resource_type : String := ""
  order : Option ℤ := none
deriving DecidableEq

/-- Python 2 comparison of sort keys `x['order']`: None sorts below every
number. -/
def oLE : Option ℤ → Option ℤ → Bool
  | none, _ => true
  | some _, none => false
  | some a, some b => a ≤ b

/-- Python truthiness of an order value: None and 0 are falsy. -/
def pyTruthyOrder : Option ℤ → Bool
  | none => false
  | some n => n != 0

/-- Python truthiness of `item.get(key)` for a string value: absent and empty
are falsy. -/
def pyTruthyOptStr : Option String → Bool
  | none => false
  | some s => !(s == "")

/-- Stable insertion of a resource into a list already sorted ascending by
`order`: the new element goes before the first element it is `oLE`-below-or-
equal to, hence after any earlier-listed equal keys already placed. -/
def insertRes (x : Resource) : List Resource → List Resource
  | [] => [x]
  | y :: ys => if oLE x.order y.order then x :: y :: ys else y :: insertRes x ys

/-- Stable ascending sort by `order`: the same output as Python's stable
`list.sort(key=lambda x: x['order'])`. -/
def sortRes : List Resource → List Resource
  | [] => []
  | x :: xs => insertRes x (sortRes xs)

/-- `OLUHarvester._make_geojson_resource` (lines 162-183). -/
def mkGeojsonResource (it : Item) : Option Resource :=
  if pyTruthyOptStr it.geojsonLink then
    some
      { name := "GeoJSON Download from Plan4All",
        description := "Download the geojson file from Plan4All.",
        url := it.geojsonLink.getD "",
        format := "JSON",
        mimetype := "application/json",
        resource_type := "plan4all_geojson",
        order := some 1 }
  else none

/-- `OLUHarvester._make_shapefile_resource` (lines 185-206). -/
def mkShapefileResource (it : Item) : Option Resource :=
  if pyTruthyOptStr it.shapefileLink then
    some
      { name := "ShapeFile Download from Plan4All",
        description := "Download ESRI shapefile as zip from Plan4All.",
        url := it.shapefileLink.getD "",
        format := "ZIP",
        mimetype := "application/zip",
        resource_type := "plan4all_shapefile",
        order := some 2 }
  else none

/-- `OLUHarvester._make_thumbnail_resource` (lines 208-230). -/
def mkThumbnailResource (it : Item) : Option Resource :=
  if pyTruthyOptStr it.thumbnail then
    some
      { name := "Thumbnail Download",
        description := "Download a PNG quicklook.",
        url := it.thumbnail.getD "",
        format := "PNG",
        mimetype := "image/png",
        resource_type := "thumbnail",
        order := some 3 }
  else none

/-- Lines 239-243: the new candidates, in construction order shapefile,
geojson, thumbnail, keeping only the ones present. -/
def candidates (it : Item) : List Resource :=
  [mkShapefileResource it, mkGeojsonResource it, mkThumbnailResource it].filterMap id

/-- Lines 243-258 of `_get_resources`, with the new candidates as a
parameter: when there are no old resources the candidates are returned as
built; otherwise old resources whose type is not among the candidate types
and whose order is truthy are retained, the candidates are appended, and the
combined list is stable-sorted ascending by order. -/
def reconcile (old new : List Resource) : List Resource :=
  if old.isEmpty then new
  else
    let newTypes := new.map (fun r => r.resource_type)
    sortRes
      ((old.filter fun r =>
          !(newTypes.contains r.resource_type) && pyTruthyOrder r.order) ++ new)

/-- `OLUHarvester._get_resources` (lines 232-258): old resources come from
the package (an absent package yields the empty list, which Python treats the
same as None here). -/
def getResources (old : List Resource) (it : Item) : List Resource :=
  reconcile old (candidates it)

/-- The parts of the ESA job configuration that drive the date window
(esa.py gather_stage). -/
structure EsaConfig where
  start_date : Option String := none
  end_date : Option String := none
deriving DecidableEq

/-- Modelled from the spec: `_get_object_extra` (defined in
nextgeoss_base.py, which is not under src/) reads the named extra of a
harvest object and falls back to the given default; extras are modelled as
key-value pairs. -/
def getObjectExtra (extras : List (String × String)) (key dflt : String) : String :=
  ((extras.find? (fun p => p.1 == key)).map (fun p => p.2)).getD dflt

/-- esa.py lines 87-96: the restart date is the `restart_date` extra of the
most recently gathered harvest object of the source (its extras are the
argument), with the wildcard when no prior object exists or the extra is
missing. -/
def esaRestartDate (lastObject : Option (List (String × String))) : String :=
  match lastObject with
  | none => "*"
  | some extras => getObjectExtra extras "restart_date" "*"

/-- esa.py lines 98-99: the crawl window; an explicitly configured
start_date/end_date wins, the restart cursor (resp. NOW) is the fallback. -/
def esaDateRange (cfg : EsaConfig) (lastObject : Option (List (String × String))) :
    String × String :=
  (cfg.start_date.getD (esaRestartDate lastObject), cfg.end_date.getD "NOW")

/-- esa.py line 100: the query's date-range filter text. -/
def esaDateRangeStr (cfg : EsaConfig) (lastObject : Option (List (String × String))) :
    String :=
  "[" ++ (esaDateRange cfg lastObject).1 ++ " TO " ++ (esaDateRange cfg lastObject).2 ++ "]"

/-- The order of `a` is below-or-equal that of `b` (the sort relation). -/
def ResLE (a b : Resource) : Prop :=
  oLE a.order b.order = true

theorem oLE_total (a b : Option ℤ) (h : oLE a b = false) : oLE b a = true := by
  cases a with
  | none => simp [oLE] at h
  | some x =>
    cases b with
    | none => simp [oLE]
    | some y =>
      simp [oLE] at *
      omega

theorem oLE_trans (a b c : Option ℤ) (h1 : oLE a b = true) (h2 : oLE b c = true) :
    oLE a c = true := by
  cases a with
  | none => simp [oLE]
  | some x =>
    cases b with
    | none => simp [oLE] at h1
    | some y =>
      cases c with
      | none => simp [oLE] at h2
      | some z =>
        simp [oLE] at *
        omega

theorem insertRes_comm (x z : Resource) (h : oLE x.order z.order = false)
    (t : List Resource) :
    insertRes z (insertRes x t) = insertRes x (insertRes z t) := by
  have hzx : oLE z.order x.order = true := oLE_total _ _ h
  induction t with
  | nil => simp [insertRes, h, hzx]
  | cons w ws ih =>
    cases hxw : oLE x.order w.order with
    | true =>
      have hzw : oLE z.order w.order = true := oLE_trans _ _ _ hzx hxw
      simp [insertRes, hxw, hzw, h, hzx]
    | false =>
      cases hzw : oLE z.order w.order with
      | true => simp [insertRes, hxw, hzw, h, hzx]
      | false => simp [insertRes, hxw, hzw, ih]

theorem foldr_insertRes_insertRes (s : List Resource) (x : Resource)
    (c : List Resource) :
    (insertRes x c).foldr insertRes s = insertRes x (c.foldr insertRes s) := by
  induction c generalizing s with
  | nil => rfl
  | cons z zs ih =>
    cases hxz : oLE x.order z.order with
    | true => simp [insertRes, hxz]
    | false =>
      simp only [insertRes, hxz, if_neg, Bool.false_eq_true, not_false_iff,
        List.foldr_cons, ih]
      exact insertRes_comm x z hxz (zs.foldr insertRes s)

theorem foldr_insertRes_sortRes (s c : List Resource) :
    (sortRes c).foldr insertRes s = c.foldr insertRes s := by
  induction c generalizing s with
  | nil => rfl
  | cons x xs ih =>
    simp only [sortRes, List.foldr_cons, foldr_insertRes_insertRes, ih]

theorem sortRes_append (a b : List Resource) :
    sortRes (a ++ b) = a.foldr insertRes (sortRes b) := by
  induction a with
  | nil => rfl
  | cons x xs ih => simp [sortRes, ih]

theorem sortRes_sortRes_append (c b : List Resource) :
    sortRes (sortRes c ++ b) = sortRes (c ++ b) := by
  rw [sortRes_append, sortRes_append, foldr_insertRes_sortRes]

theorem mem_insertRes {a x : Resource} {l : List Resource} :
    a ∈ insertRes x l ↔ a = x ∨ a ∈ l := by
  induction l with
  | nil => simp [insertRes]
  | cons y ys ih =>
    cases hxy : oLE x.order y.order with
    | true => simp [insertRes, hxy]
    | false =>
      simp [insertRes, hxy, ih]
      tauto

theorem pairwise_insertRes (x : Resource) (l : List Resource)
    (h : l.Pairwise ResLE) : (insertRes x l).Pairwise ResLE := by
  induction l with
  | nil => simp [insertRes, List.Pairwise]
  | cons y ys ih =>
    rw [List.pairwise_cons] at h
    cases hxy : oLE x.order y.order with
    | true =>
      have hx : ∀ b ∈ y :: ys, ResLE x b := by
        intro b hb
        rcases List.mem_cons.mp hb with hb | hb
        · subst hb; exact hxy
        · exact oLE_trans _ _ _ hxy (h.1 b hb)
      simp only [insertRes, hxy, if_pos]
      exact List.pairwise_cons.mpr ⟨hx, List.pairwise_cons.mpr h⟩
    | false =>
      simp only [insertRes, hxy, Bool.false_eq_true, if_neg, not_false_iff]
      refine List.pairwise_cons.mpr ⟨?_, ih h.2⟩
      intro b hb
      rcases mem_insertRes.mp hb with hb | hb
      · subst hb; exact oLE_total _ _ hxy
      · exact h.1 b hb

theorem pairwise_sortRes (l : List Resource) : (sortRes l).Pairwise ResLE := by
  induction l with
  | nil => simp [sortRes, List.Pairwise]
  | cons x xs ih => exact pairwise_insertRes x (sortRes xs) ih

theorem insertRes_eq_cons (x : Resource) (l : List Resource)
    (h : ∀ b ∈ l, ResLE x b) : insertRes x l = x :: l := by
  cases l with
  | nil => rfl
  | cons b bs =>
    have hb : oLE x.order b.order = true := h b (List.mem_cons_self b bs)
    simp [insertRes, hb]

theorem filter_insertRes_neg (p : Resource → Bool) (x : Resource)
    (l : List Resource) (h : p x = false) :
    (insertRes x l).filter p = l.filter p := by
  induction l with
  | nil => simp [insertRes, h]
  | cons y ys ih =>
    cases hxy : oLE x.order y.order with
    | true => simp [insertRes, hxy, List.filter, h]
    | false =>
      cases hy : p y <;>
        simp [insertRes, hxy, List.filter, hy, ih]

theorem filter_insertRes_pos (p : Resource → Bool) (x : Resource)
    (l : List Resource) (hp : p x = true) (hs : l.Pairwise ResLE) :
    (insertRes x l).filter p = insertRes x (l.filter p) := by
  induction l with
  | nil => simp [insertRes, hp]
  | cons y ys ih =>
    rw [List.pairwise_cons] at hs
    cases hxy : oLE x.order y.order with
    | true =>
      cases hy : p y with
      | true => simp [insertRes, hxy, List.filter, hp, hy]
      | false =>
        have hxall : ∀ b ∈ ys.filter p, ResLE x b := by
          intro b hb
          exact oLE_trans _ _ _ hxy (hs.1 b (List.mem_of_mem_filter hb))
        simp only [insertRes, hxy, if_pos, List.filter, hp, hy]
        rw [insertRes_eq_cons x (ys.filter p) hxall]
    | false =>
      cases hy : p y <;>
        simp [insertRes, hxy, List.filter, hy, ih hs.2]

theorem filter_sortRes (p : Resource → Bool) (l : List Resource) :
    (sortRes l).filter p = sortRes (l.filter p) := by
  induction l with
  | nil => rfl
  | cons x xs ih =>
    cases hx : p x with
    | true =>
      simp only [sortRes, List.filter, hx]
      rw [filter_insertRes_pos p x (sortRes xs) hx (pairwise_sortRes xs), ih]
    | false =>
      simp only [sortRes, List.filter, hx]
      rw [filter_insertRes_neg p x (sortRes xs) hx, ih]

theorem length_insertRes (x : Resource) (l : List Resource) :
    (insertRes x l).length = l.length + 1 := by
  induction l with
  | nil => rfl
  | cons y ys ih =>
    cases hxy : oLE x.order y.order with
    | true => simp [insertRes, hxy]
    | false => simp [insertRes, hxy, ih]

theorem length_sortRes (l : List Resource) : (sortRes l).length = l.length := by
  induction l with
  | nil => rfl
  | cons x xs ih => simp [sortRes, length_insertRes, ih]

theorem sortRes_eq_nil_iff (l : List Resource) : sortRes l = [] ↔ l = [] := by
  constructor
  · intro h
    have := length_sortRes l
    rw [h] at this
    exact List.length_eq_zero.mp this.symm
  · intro h; subst h; rfl

theorem filter_idem (p : Resource → Bool) (l : List Resource) :
    (l.filter p).filter p = l.filter p := by
  induction l with
  | nil => rfl
  | cons x xs ih =>
    cases hx : p x <;> simp [List.filter, hx, ih]

theorem reconcile_nonempty (old new : List Resource) (h : old ≠ []) :
    reconcile old new =
      sortRes
        ((old.filter fun r =>
            !((new.map (fun r2 => r2.resource_type)).contains r.resource_type) &&
              pyTruthyOrder r.order) ++ new) := by
  have he : old.isEmpty = false := by
    cases old with
    | nil => exact absurd rfl h
    | cons a as => rfl
  simp [reconcile, he]

theorem filter_against_own_types (new : List Resource) :
    (new.filter fun r =>
        !((new.map (fun r2 => r2.resource_type)).contains r.resource_type) &&
          pyTruthyOrder r.order) = [] := by
  rw [List.filter_eq_nil_iff]
  intro x hx
  have hmem : x.resource_type ∈ new.map (fun r2 => r2.resource_type) :=
    List.mem_map_of_mem _ hx
  simp [List.contains, List.elem_iff, hmem]

/-- The merge rule exactly as the claim states it, for every pair of lists:
retain old resources whose type is not among the candidate types and whose
order is defined (non-null), append the candidates, sort ascending by order. -/
def reconcileClaim (old new : List Resource) : List Resource :=
  sortRes
    ((old.filter fun r =>
        !((new.map (fun r2 => r2.resource_type)).contains r.resource_type) &&
          r.order.isSome) ++ new)

/-- The merge rule with the two corrections the code forces: it only applies
to non-empty old lists (see `reconcile`) and the retained old resources need
a truthy (non-null, non-zero) order. -/
def reconcileTruthy (old new : List Resource) : List Resource :=
  sortRes
    ((old.filter fun r =>
        !((new.map (fun r2 => r2.resource_type)).contains r.resource_type) &&
          pyTruthyOrder r.order) ++ new)

/-- A shapefile candidate as `_make_shapefile_resource` builds it. -/
def resShpEx : Resource :=
  { name := "ShapeFile Download from Plan4All",
    description := "Download ESRI shapefile as zip from Plan4All.",
    url := "su", format := "ZIP", mimetype := "application/zip",
    resource_type := "plan4all_shapefile", order := some 2 }

/-- A geojson candidate as `_make_geojson_resource` builds it. -/
def resGjEx : Resource :=
  { name := "GeoJSON Download from Plan4All",
    description := "Download the geojson file from Plan4All.",
    url := "gu", format := "JSON", mimetype := "application/json",
    resource_type := "plan4all_geojson", order := some 1 }

/-- A thumbnail candidate as `_make_thumbnail_resource` builds it. -/
def resThEx : Resource :=
  { name := "Thumbnail Download",
    description := "Download a PNG quicklook.",
    url := "tu", format := "PNG", mimetype := "image/png",
    resource_type := "thumbnail", order := some 3 }

/-- An old resource with a null-free but zero order value. -/
def resOrderZero : Resource :=
  { resource_type := "A", order := some 0 }

/-- The old resources of the claim's worked example. -/
def c1OldEx : List Resource :=
  [{ resource_type := "A", order := some 1 }, { resource_type := "B", order := some 2 }]

/-- The new candidate of the claim's worked example. -/
def c1NewEx : List Resource :=
  [{ resource_type := "B", url := "u2", order := some 2 }]

/-- A parsed item carrying all three derivable links. -/
def itemAllLinks : Item :=
  { shapefileLink := some "su", geojsonLink := some "gu", thumbnail := some "tu" }

/-- C1 (counterexample): the claim's merge rule does not hold for every pair
of lists.  With no old resources the code returns the candidates unsorted
(shapefile order 2 before geojson order 1) while the claimed rule sorts
them; and an old resource with order 0 has a defined order but is dropped by
the code's truthiness test. -/
theorem c1_counterexample :
    reconcile [] [resShpEx, resGjEx] ≠ reconcileClaim [] [resShpEx, resGjEx] ∧
      reconcile [resOrderZero] [] ≠ reconcileClaim [resOrderZero] [] := by
  constructor
  · decide
  · decide

/-- C1 (amended): for every non-empty list of old resources and every list
of new candidates, `_get_resources` retains each old resource whose
resource_type is not among the candidate types and whose order is truthy
(present and non-zero), appends all candidates, and stable-sorts the
combined list ascending by order. -/
theorem c1_merge_rule_nonempty (old new : List Resource) (h : old ≠ []) :
    reconcile old new = reconcileTruthy old new := by
  rw [reconcile_nonempty old new h]
  rfl

/-- C1 witness: the amended rule applied to the claim's worked example,
old = [{A, 1}, {B, 2}], new = [{B, 2, u2}], giving
[{A, 1}, {B, 2, u2}]. -/
theorem c1_witness :
    reconcile c1OldEx c1NewEx = reconcileTruthy c1OldEx c1NewEx ∧
      reconcile c1OldEx c1NewEx =
        [{ resource_type := "A", order := some 1 },
         { resource_type := "B", url := "u2", order := some 2 }] :=
  ⟨c1_merge_rule_nonempty c1OldEx c1NewEx (by decide), by decide⟩

/-- C3 (counterexample): reconciliation is not idempotent on every input.
With no old resources the first application returns the candidates unsorted
(orders 2, 1) and the second application sorts them (orders 1, 2). -/
theorem c3_counterexample :
    reconcile (reconcile [] [resShpEx, resGjEx]) [resShpEx, resGjEx] ≠
      reconcile [] [resShpEx, resGjEx] := by
  decide

/-- C3 (amended): reconciliation is idempotent whenever the old resource
list is non-empty: re-running `_get_resources` over its own output with the
same candidates reproduces the output exactly. -/
theorem c3_idempotent_nonempty (old new : List Resource) (h : old ≠ []) :
    reconcile (reconcile old new) new = reconcile old new := by
  have hr1 := reconcile_nonempty old new h
  by_cases h2 : reconcile old new = []
  · have hnil : sortRes
        ((old.filter fun r =>
            !((new.map (fun r2 => r2.resource_type)).contains r.resource_type) &&
              pyTruthyOrder r.order) ++ new) = [] := by
      rw [← hr1]; exact h2
    have happ := (sortRes_eq_nil_iff _).mp hnil
    have hnew : new = [] := (List.append_eq_nil.mp happ).2
    rw [h2]
    show new = ([] : List Resource)
    exact hnew
  · rw [reconcile_nonempty _ new h2, hr1, filter_sortRes, List.filter_append,
      filter_idem, filter_against_own_types, List.append_nil,
      sortRes_sortRes_append]

/-- C3 witness: idempotence at a concrete non-empty old list and concrete
candidates. -/
theorem c3_witness :
    reconcile (reconcile c1OldEx [resShpEx, resGjEx]) [resShpEx, resGjEx] =
      reconcile c1OldEx [resShpEx, resGjEx] :=
  c3_idempotent_nonempty c1OldEx [resShpEx, resGjEx] (by decide)

/-- C10: with no previously persisted resources, `_get_resources` returns
exactly the present candidates in construction order shapefile, geojson,
thumbnail; in particular with all three present the orders come back
2, 1, 3 — not sorted ascending. -/
theorem c10_empty_old_unsorted :
    (∀ it : Item,
        getResources [] it =
          [mkShapefileResource it, mkGeojsonResource it,
            mkThumbnailResource it].filterMap id) ∧
      getResources [] itemAllLinks = [resShpEx, resGjEx, resThEx] ∧
      (getResources [] itemAllLinks).map (fun r => r.order) =
        [some 2, some 1, some 3] := by
  refine ⟨fun it => rfl, by decide, by decide⟩

/-- C2: gather_stage resumes from the restart_date extra of the most
recently gathered harvest object, uses the wildcard when no prior object
exists, and the cursor feeds the window start only when no start_date is
configured; configured start_date and end_date always win. -/
theorem c2_restart_cursor :
    esaRestartDate none = "*" ∧
      (∀ d rest, esaRestartDate (some (("restart_date", d) :: rest)) = d) ∧
      (∀ cfg lo s, cfg.start_date = some s → (esaDateRange cfg lo).1 = s) ∧
      (∀ cfg lo e, cfg.end_date = some e → (esaDateRange cfg lo).2 = e) ∧
      (∀ cfg lo, cfg.start_date = none →
        (esaDateRange cfg lo).1 = esaRestartDate lo) ∧
      (∀ cfg lo, cfg.end_date = none → (esaDateRange cfg lo).2 = "NOW") := by
  refine ⟨rfl, ?_, ?_, ?_, ?_, ?_⟩
  · intro d rest
    simp [esaRestartDate, getObjectExtra, List.find?]
  · intro cfg lo s hs
    simp [esaDateRange, hs]
  · intro cfg lo e he
    simp [esaDateRange, he]
  · intro cfg lo hs
    simp [esaDateRange, hs]
  · intro cfg lo he
    simp [esaDateRange, he]

/-- C2 witness: a configured start_date wins over a present cursor, and with
no configured start_date the cursor is the window start. -/
theorem c2_witness :
    (esaDateRange { start_date := some "2018-01-01T00:00:00.000Z" }
        (some [("restart_date", "2017-06-01T00:00:00.000Z")])).1 =
      "2018-01-01T00:00:00.000Z" ∧
      (esaDateRange { }
          (some [("restart_date", "2017-06-01T00:00:00.000Z")])).1 =
        esaRestartDate (some [("restart_date", "2017-06-01T00:00:00.000Z")]) ∧
      esaRestartDate none = "*" :=
  ⟨c2_restart_cursor.2.2.1 _ _ _ rfl,
    c2_restart_cursor.2.2.2.2.1 _ _ rfl,
    c2_restart_cursor.1⟩

/-- C7: for all numeric bounds the spatial conversion builds the closed
5-point ring NW, NE, SE, SW, NW, whose first point equals its last. -/
theorem c7_polygon_ring :
    ∀ (ws es ss ns : String) (w e s n : ℚ),
      pyFloat ws = .ok w → pyFloat es = .ok e → pyFloat ss = .ok s →
        pyFloat ns = .ok n →
        parseSpatial { west := some ws, east := some es, south := some ss, north := some ns } =
            .ok [(w, n), (e, n), (e, s), (w, s), (w, n)] ∧
          ([(w, n), (e, n), (e, s), (w, s), (w, n)] : List (ℚ × ℚ)).head? =
            ([(w, n), (e, n), (e, s), (w, s), (w, n)] : List (ℚ × ℚ)).getLast? := by
  intro ws es ss ns w e s n hw he hs hn
  constructor
  · simp [parseSpatial, hw, he, hs, hn]
  · rfl

/-- C7 witness: the spec's example bounds give the example ring. -/
theorem c7_witness :
    parseSpatial
        { west := some "10.0", east := some "20.0",
          south := some "-5.0", north := some "5.0" } =
      .ok [(10, 5), (20, 5), (20, -5), (10, -5), (10, 5)] :=
  (c7_polygon_ring "10.0" "20.0" "-5.0" "5.0" 10 20 (-5) 5
    (by decide) (by decide) (by decide) (by decide)).1

theorem pyLowerChar_ne_Z (c : Char) : pyLowerChar c ≠ 'Z' := by
  unfold pyLowerChar
  split <;> simp_all

theorem getLast?_map_list {α β : Type} (f : α → β) (l : List α) :
    (l.map f).getLast? = l.getLast?.map f := by
  induction l with
  | nil => rfl
  | cons a as ih =>
    cases as with
    | nil => rfl
    | cons b bs =>
      rw [List.map_cons, List.map_cons, List.getLast?_cons_cons, ← List.map_cons,
        List.getLast?_cons_cons]
      exact ih

theorem pyEndsWith_pyLower_Z (s : String) : pyEndsWith (pyLower s) 'Z' = false := by
  have hdata : (pyLower s).data = s.data.map pyLowerChar := rfl
  unfold pyEndsWith
  rw [hdata, getLast?_map_list]
  cases h : s.data.getLast? with
  | none => rfl
  | some c =>
    show (pyLowerChar c == 'Z') = false
    exact beq_eq_false_iff_ne.mpr (pyLowerChar_ne_Z c)

theorem collectStep_StartTime (it : Item) (nd : XNode) :
    (collectStep it nd).StartTime = it.StartTime ∨
      (collectStep it nd).StartTime = some (pyLower nd.innerText) := by
  by_cases h : nd.nameOf = "gmd:datestamp"
  · right
    simp [collectStep, h]
  · left
    simp [collectStep, h, apply_ite Item.StartTime]

theorem collectStep_StopTime (it : Item) (nd : XNode) :
    (collectStep it nd).StopTime = it.StopTime := by
  simp [collectStep, apply_ite Item.StopTime]

theorem foldl_collectStep_StopTime (nodes : List XNode) (it : Item) :
    (nodes.foldl collectStep it).StopTime = it.StopTime := by
  induction nodes generalizing it with
  | nil => rfl
  | cons nd nds ih => rw [List.foldl_cons, ih, collectStep_StopTime]

theorem foldl_collectStep_StartTime_notZ (nodes : List XNode) (it : Item)
    (h : ∀ s, it.StartTime = some s → pyEndsWith s 'Z' = false) :
    ∀ s, (nodes.foldl collectStep it).StartTime = some s →
      pyEndsWith s 'Z' = false := by
  induction nodes generalizing it with
  | nil => exact h
  | cons nd nds ih =>
    rw [List.foldl_cons]
    apply ih
    intro s2 hs2
    rcases collectStep_StartTime it nd with hc | hc
    · exact h s2 (hc ▸ hs2)
    · rw [hc] at hs2
      injection hs2 with h3
      rw [← h3]
      exact pyEndsWith_pyLower_Z nd.innerText

theorem dropIncompleteSpatial_StartTime (it : Item) :
    (dropIncompleteSpatial it).StartTime = it.StartTime := by
  cases h : it.spatialDict <;>
    simp [dropIncompleteSpatial, h, apply_ite Item.StartTime]

theorem dropIncompleteSpatial_StopTime (it : Item) :
    (dropIncompleteSpatial it).StopTime = it.StopTime := by
  cases h : it.spatialDict <;>
    simp [dropIncompleteSpatial, h, apply_ite Item.StopTime]

/-- C6: whenever the collected metadata has a StartTime (the datestamp) and
no StopTime (the sources map nothing to StopTime), `_normalize_names`
synthesizes the whole UTC day: StartTime at 00:00:00.000 and StopTime at
23:59:59.999 of that date.  The guard on a trailing Z can never fire because
the datestamp text is lower-cased when collected. -/
theorem c6_whole_day_synthesis (root : XNode) (s : String)
    (h : (collectFields root).StartTime = some s) :
    (normalizeNames root).StartTime = some (s ++ "T00:00:00.000Z") ∧
      (normalizeNames root).StopTime = some (s ++ "T23:59:59.999Z") := by
  have hstop : (collectFields root).StopTime = none := by
    unfold collectFields
    rw [foldl_collectStep_StopTime]
    rfl
  have hz : pyEndsWith s 'Z' = false := by
    apply foldl_collectStep_StartTime_notZ root.descendants initItem ?_ s h
    intro s2 hs2
    simp [initItem] at hs2
  unfold normalizeNames synthTimes
  rw [dropIncompleteSpatial_StartTime, dropIncompleteSpatial_StopTime, h, hstop]
  simp [hz, dropIncompleteSpatial_StartTime, dropIncompleteSpatial_StopTime, h, hstop]

/-- A document whose metadata carries only a date-stamp. -/
def docDatestamp : XNode :=
  .elem "gmd:md_metadata" [.elem "gmd:datestamp" [.txt "2018-01-01"]]

/-- C6 witness: the single datestamp 2018-01-01 yields the whole-day
bounds. -/
theorem c6_witness :
    (normalizeNames docDatestamp).StartTime =
        some ("2018-01-01" ++ "T00:00:00.000Z") ∧
      (normalizeNames docDatestamp).StopTime =
        some ("2018-01-01" ++ "T23:59:59.999Z") :=
  c6_whole_day_synthesis docDatestamp "2018-01-01" (by decide)

theorem collectStep_spatial (it : Item) (nd : XNode) :
    (collectStep it nd).spatial = it.spatial := by
  simp [collectStep, apply_ite Item.spatial]

theorem collectStep_collection_name (it : Item) (nd : XNode) :
    (collectStep it nd).collection_name = it.collection_name := by
  simp [collectStep, apply_ite Item.collection_name]

theorem foldl_collectStep_spatial (nodes : List XNode) (it : Item) :
    (nodes.foldl collectStep it).spatial = it.spatial := by
  induction nodes generalizing it with
  | nil => rfl
  | cons nd nds ih => rw [List.foldl_cons, ih, collectStep_spatial]

theorem foldl_collectStep_collection_name (nodes : List XNode) (it : Item) :
    (nodes.foldl collectStep it).collection_name = it.collection_name := by
  induction nodes generalizing it with
  | nil => rfl
  | cons nd nds ih => rw [List.foldl_cons, ih, collectStep_collection_name]

theorem dropIncompleteSpatial_spatial (it : Item) :
    (dropIncompleteSpatial it).spatial = it.spatial := by
  cases h : it.spatialDict <;>
    simp [dropIncompleteSpatial, h, apply_ite Item.spatial]

theorem dropIncompleteSpatial_collection_name (it : Item) :
    (dropIncompleteSpatial it).collection_name = it.collection_name := by
  cases h : it.spatialDict <;>
    simp [dropIncompleteSpatial, h, apply_ite Item.collection_name]

theorem synthTimes_spatial (it : Item) : (synthTimes it).spatial = it.spatial := by
  cases h1 : it.StartTime <;> cases h2 : it.StopTime <;>
    simp [synthTimes, h1, h2, apply_ite Item.spatial]

theorem synthTimes_collection_name (it : Item) :
    (synthTimes it).collection_name = it.collection_name := by
  cases h1 : it.StartTime <;> cases h2 : it.StopTime <;>
    simp [synthTimes, h1, h2, apply_ite Item.collection_name]

theorem normalizeNames_spatial (root : XNode) :
    (normalizeNames root).spatial = none := by
  unfold normalizeNames collectFields
  rw [synthTimes_spatial, dropIncompleteSpatial_spatial, foldl_collectStep_spatial]
  rfl

theorem normalizeNames_collection_name (root : XNode) :
    (normalizeNames root).collection_name = none := by
  unfold normalizeNames collectFields
  rw [synthTimes_collection_name, dropIncompleteSpatial_collection_name,
    foldl_collectStep_collection_name]
  rfl

theorem parseSpatial_shape (d : SpatialDict) (ring : List (ℚ × ℚ))
    (h : parseSpatial d = .ok ring) :
    ∃ w e s n : ℚ, ring = [(w, n), (e, n), (e, s), (w, s), (w, n)] := by
  unfold parseSpatial at h
  repeat' split at h
  all_goals simp_all
  exact ⟨_, _, _, _, h.symm⟩

theorem applySpatial_fields (it it2 : Item) (h : applySpatial it = .ok it2) :
    it2.collection_name = it.collection_name ∧ it2.identifier = it.identifier ∧
      (it2.spatial = it.spatial ∨
        ∃ w e s n : ℚ, it2.spatial = some [(w, n), (e, n), (e, s), (w, s), (w, n)]) := by
  simp only [applySpatial] at h
  split at h
  · injection h with h2
    subst h2
    exact ⟨rfl, rfl, Or.inl rfl⟩
  · rename_i d hd
    split at h
    · rename_i ring hp
      injection h with h2
      subst h2
      refine ⟨rfl, rfl, Or.inr ?_⟩
      obtain ⟨w, e2, s2, n2, hr⟩ := parseSpatial_shape d ring hp
      exact ⟨w, e2, s2, n2, by rw [hr]⟩
    · exact Except.noConfusion h

theorem applyIdent_fields (it : Item) :
    (applyIdent it).spatial = it.spatial ∧
      (applyIdent it).collection_name = it.collection_name := by
  cases h : it.identifier <;> simp [applyIdent, h]

theorem applyParent_fields (it : Item) :
    (applyParent it).spatial = it.spatial ∧
      (applyParent it).collection_name = it.collection_name := by
  cases h : it.parent_identifier <;> simp [applyParent, h]

theorem applyName_fields (it it2 : Item) (h : applyName it = .ok it2) :
    it2.spatial = it.spatial ∧ it2.collection_name = it.collection_name := by
  unfold applyName at h
  cases hid : it.identifier with
  | none =>
    rw [hid] at h
    cases h
  | some i =>
    rw [hid] at h
    injection h with h2
    subst h2
    exact ⟨rfl, rfl⟩

theorem applyThumb_fields (root : XNode) (it it2 : Item)
    (h : applyThumb root it = .ok it2) :
    it2.spatial = it.spatial ∧ it2.collection_name = it.collection_name := by
  simp only [applyThumb] at h
  repeat' split at h
  all_goals first
    | exact Except.noConfusion h
    | (injection h with h2; subst h2; exact ⟨rfl, rfl⟩)

theorem onlineStep_fields (it : Item) (r : XNode) (it2 : Item)
    (h : onlineStep it r = .ok it2) :
    it2.spatial = it.spatial ∧ it2.collection_name = it.collection_name := by
  simp only [onlineStep] at h
  repeat' split at h
  all_goals first
    | exact Except.noConfusion h
    | (injection h with h2; subst h2; exact ⟨rfl, rfl⟩)

theorem onlinesFold_fields (rs : List XNode) (it it2 : Item)
    (h : onlinesFold it rs = .ok it2) :
    it2.spatial = it.spatial ∧ it2.collection_name = it.collection_name := by
  induction rs generalizing it with
  | nil =>
    injection h with h2
    subst h2
    exact ⟨rfl, rfl⟩
  | cons r rest ih =>
    unfold onlinesFold at h
    cases hs : onlineStep it r with
    | error e =>
      rw [hs] at h
      cases h
    | ok itm =>
      rw [hs] at h
      obtain ⟨ha, hb⟩ := ih itm h
      obtain ⟨hc, hd⟩ := onlineStep_fields it r itm hs
      exact ⟨ha.trans hc, hb.trans hd⟩

theorem addCollection_fields (it it2 : Item) (h : addCollection it = .ok it2) :
    it2.spatial = it.spatial ∧
      ∃ id0, it.identifier = some id0 ∧ it2.identifier = some id0 ∧
        ((pyStartsWith (pyLower id0) "olu" = true ∧
            it2.collection_name = some "Open Land Use Map") ∨
          (pyStartsWith (pyLower id0) "olu" = false ∧
            it2.collection_name = it.collection_name)) := by
  simp only [addCollection] at h
  split at h
  · exact Except.noConfusion h
  · rename_i id0 hid
    split at h
    · rename_i ho
      injection h with h2
      subst h2
      exact ⟨rfl, id0, hid, hid, Or.inl ⟨ho, rfl⟩⟩
    · rename_i ho
      injection h with h2
      subst h2
      exact ⟨rfl, id0, hid, hid, Or.inr ⟨Bool.eq_false_iff.mpr ho, rfl⟩⟩

theorem applyTitleNotesTags_fields (it it2 : Item)
    (h : applyTitleNotesTags it = .ok it2) :
    it2.spatial = it.spatial ∧ it2.identifier = it.identifier ∧
      ∃ cn, it.collection_name = some cn := by
  simp only [applyTitleNotesTags] at h
  split at h
  · exact Except.noConfusion h
  · rename_i cn hcn
    split at h
    · exact Except.noConfusion h
    · split at h
      · rename_i ts ht
        injection h with h2
        subst h2
        exact ⟨rfl, rfl, cn, hcn⟩
      · exact Except.noConfusion h

/-- Everything the parse-level claims need about a successfully parsed item:
its spatial field is absent or a complete closed 5-point ring, and its
identifier exists and starts with olu (case-insensitively). -/
theorem parseContent_anatomy (root : XNode) (item : Item)
    (h : parseContent root = .ok item) :
    (item.spatial = none ∨
        ∃ w e s n : ℚ,
          item.spatial = some [(w, n), (e, n), (e, s), (w, s), (w, n)]) ∧
      ∃ id0, item.identifier = some id0 ∧
        pyStartsWith (pyLower id0) "olu" = true := by
  simp only [parseContent] at h
  split at h
  · exact Except.noConfusion h
  · rename_i it1 h1
    split at h
    · exact Except.noConfusion h
    · rename_i it3 h3
      split at h
      · exact Except.noConfusion h
      · rename_i it4 h4
        split at h
        · exact Except.noConfusion h
        · rename_i it5 h5
          split at h
          · exact Except.noConfusion h
          · rename_i it6 h6
            obtain ⟨hcnA, hidA, hring⟩ :=
              applySpatial_fields (normalizeNames root) it1 h1
            obtain ⟨hsp3, hcn3⟩ :=
              applyName_fields (applyParent (applyIdent it1)) it3 h3
            obtain ⟨hsp4, hcn4⟩ := applyThumb_fields root it3 it4 h4
            obtain ⟨hsp5, hcn5⟩ :=
              onlinesFold_fields (root.findAllDesc "gmd:online") it4 it5 h5
            obtain ⟨hsp6, id0, hid5, hid6, holu⟩ :=
              addCollection_fields it5 it6 h6
            obtain ⟨hsp7, hid7, cn, hcn7⟩ :=
              applyTitleNotesTags_fields it6 item h
            have hcn5n : it5.collection_name = none := by
              rw [hcn5, hcn4, hcn3, (applyParent_fields (applyIdent it1)).2,
                (applyIdent_fields it1).2, hcnA, normalizeNames_collection_name]
            constructor
            · have hspitem : item.spatial = it1.spatial := by
                rw [hsp7, hsp6, hsp5, hsp4, hsp3,
                  (applyParent_fields (applyIdent it1)).1,
                  (applyIdent_fields it1).1]
              rcases hring with hr | ⟨w, e2, s2, n2, hr⟩
              · left
                rw [hspitem, hr, normalizeNames_spatial]
              · right
                exact ⟨w, e2, s2, n2, by rw [hspitem, hr]⟩
            · rcases holu with ⟨hyes, _⟩ | ⟨_, hno⟩
              · exact ⟨id0, hid7.trans hid6, hyes⟩
              · rw [hno, hcn5n] at hcn7
                cases hcn7

/-- An entry whose west bound is present but not numeric. -/
def docBadWest : XNode :=
  .elem "gmd:md_metadata"
    [ .elem "gmd:fileidentifier" [.txt "olu1"],
      .elem "gmd:westboundlongitude" [.txt "abc"],
      .elem "gmd:eastboundlongitude" [.txt "20.0"],
      .elem "gmd:southboundlatitude" [.txt "-5.0"],
      .elem "gmd:northboundlatitude" [.txt "5.0"] ]

/-- An entry with a complete numeric bounding box and an olu identifier. -/
def docOluSpatial : XNode :=
  .elem "gmd:md_metadata"
    [ .elem "gmd:fileidentifier" [.txt "olu1"],
      .elem "gmd:westboundlongitude" [.txt "10.0"],
      .elem "gmd:eastboundlongitude" [.txt "20.0"],
      .elem "gmd:southboundlatitude" [.txt "-5.0"],
      .elem "gmd:northboundlatitude" [.txt "5.0"] ]

/-- An entry with the south bound missing entirely. -/
def docOluNoSouth : XNode :=
  .elem "gmd:md_metadata"
    [ .elem "gmd:fileidentifier" [.txt "olu1"],
      .elem "gmd:westboundlongitude" [.txt "10.0"],
      .elem "gmd:eastboundlongitude" [.txt "20.0"],
      .elem "gmd:northboundlatitude" [.txt "5.0"] ]

/-- The item parsed from `docOluSpatial`. -/
def itemOluSpatial : Item :=
  ((parseContent docOluSpatial).toOption).getD {}

/-- The item parsed from `docOluNoSouth`. -/
def itemOluNoSouth : Item :=
  ((parseContent docOluNoSouth).toOption).getD {}

/-- C5 (counterexample): with a present but non-numeric west bound the
conversion does not return none — `float` raises ValueError, so
`_parse_content` produces no canonical item at all, while the claim says an
item without a spatial field is produced. -/
theorem c5_counterexample :
    parseContent docBadWest = Except.error "ValueError" := by
  rfl

/-- C5 (amended): a missing bound makes the whole spatial group vanish (the
item is produced and carries no spatial field), a non-numeric bound makes
`_parse_content` raise, and consequently every produced item's spatial field
is either absent or a complete closed 5-point ring — never partial. -/
theorem c5_no_partial_geometry :
    (∀ (root : XNode) (item : Item), parseContent root = .ok item →
        item.spatial = none ∨
          ∃ w e s n : ℚ,
            item.spatial = some [(w, n), (e, n), (e, s), (w, s), (w, n)]) ∧
      parseContent docOluNoSouth = .ok itemOluNoSouth ∧
      itemOluNoSouth.spatial = none :=
  ⟨fun root item h => (parseContent_anatomy root item h).1, by rfl, by rfl⟩

/-- C5 witness: the complete-bbox document, whose parsed item carries the
full ring. -/
theorem c5_witness :
    itemOluSpatial.spatial = none ∨
      ∃ w e s n : ℚ,
        itemOluSpatial.spatial = some [(w, n), (e, n), (e, s), (w, s), (w, n)] :=
  c5_no_partial_geometry.1 docOluSpatial itemOluSpatial (by rfl)

/-- An entry whose identifier does not start with olu. -/
def docNonOlu : XNode :=
  .elem "gmd:md_metadata" [.elem "gmd:fileidentifier" [.txt "xyz.1"]]

/-- An item with a non-olu identifier. -/
def itemNonOluEx : Item :=
  { identifier := some "xyz_1" }

/-- C9: `_add_collection` adds no collection keys when the lower-cased
identifier does not start with olu; `_parse_content` then raises KeyError at
the unconditional title override, so only olu-identified entries produce a
canonical item. -/
theorem c9_non_olu_keyerror :
    (∀ (it : Item) (id0 : String), it.identifier = some id0 →
        pyStartsWith (pyLower id0) "olu" = false → addCollection it = .ok it) ∧
      (∀ (root : XNode) (item : Item), parseContent root = .ok item →
        ∃ id0, item.identifier = some id0 ∧
          pyStartsWith (pyLower id0) "olu" = true) ∧
      parseContent docNonOlu = .error "KeyError: collection_name" := by
  refine ⟨?_, fun root item h => (parseContent_anatomy root item h).2, by rfl⟩
  intro it id0 hid ho
  simp [addCollection, hid, ho]

/-- C9 witness: a non-olu item passes `_add_collection` unchanged. -/
theorem c9_witness : addCollection itemNonOluEx = .ok itemNonOluEx :=
  c9_non_olu_keyerror.1 itemNonOluEx "xyz_1" rfl (by decide)

end NextGeoss
